import Mathlib

set_option allowUnsafeReducibility true in
attribute [semireducible] Rat.add Rat.mul Rat.inv Rat.div Rat.sub Rat.neg Rat.ofScientific

set_option maxRecDepth 100000

/-!
Shallow embedding of the core of the `raytracer` repository
(src/shape.rs, src/sphere.rs, src/plane.rs, src/scene.rs, src/light.rs).

Modelling conventions:
* `f32` scalars are modelled by `ℚ` (exact rational arithmetic; floating
  rounding is out of scope of the embedding).
* `f32::sqrt` is modelled by `fsqrt`, a computable rational square root
  that is exact on perfect squares and a floor approximation otherwise;
  negative inputs map to `0`.  All the proved branch-level properties are
  independent of the approximation error of `fsqrt`.
* The float literal `1E-6` is modelled exactly as `1/1000000`, the literal
  `0.001` as `1/1000`, and `f32::EPSILON` (used by `abs_diff_eq!`) as
  `2⁻²³ = 1/8388608`.
* `material.shininess` is an `f32` Phong exponent used only through
  `powf`; it is modelled as a natural exponent (monomial power), which
  preserves sign and monotonicity behaviour of `powf` on its actual
  argument range.
* The mutable random generator `rand::Rng` is modelled by explicit state
  passing: an `Rng` is a stream of unit-sphere samples plus a cursor, and
  every sampling call returns the (possibly advanced) generator.
-/

/-- Three-component vector of rationals; models both `cgmath::Vector3<f32>`
and `cgmath::Point3<f32>` (points and displacements share the component
representation; `Point - Point = Vector`, `Point + Vector = Point`). -/
structure Vec3 where
  x : ℚ
  y : ℚ
  z : ℚ
deriving DecidableEq, Repr

instance : Add Vec3 := ⟨fun a b => ⟨a.x + b.x, a.y + b.y, a.z + b.z⟩⟩

instance : Sub Vec3 := ⟨fun a b => ⟨a.x - b.x, a.y - b.y, a.z - b.z⟩⟩

instance : Neg Vec3 := ⟨fun a => ⟨-a.x, -a.y, -a.z⟩⟩

instance : SMul ℚ Vec3 := ⟨fun c a => ⟨c * a.x, c * a.y, c * a.z⟩⟩

/-- Dot product, models `cgmath::dot`. -/
def Vec3.dot (a b : Vec3) : ℚ := a.x * b.x + a.y * b.y + a.z * b.z

/-- Squared length, models `InnerSpace::magnitude2`. -/
def Vec3.magnitude2 (a : Vec3) : ℚ := a.dot a

/-- One bit of the integer square root: try to set bit `i` of the
candidate root of `n`. -/
def nsqrtStep (n res : ℕ) (i : ℕ) : ℕ :=
  if (res + 2 ^ i) * (res + 2 ^ i) ≤ n then res + 2 ^ i else res

/-- Bit-by-bit integer square root accumulator, from bit `i` down to 0. -/
def nsqrtGo (n : ℕ) : ℕ → ℕ → ℕ
  | res, 0 => nsqrtStep n res 0
  | res, i + 1 => nsqrtGo n (nsqrtStep n res (i + 1)) i

/-- Floor integer square root (exact on perfect squares), computed with
32 bits of precision, enough for every value in this development. -/
def nsqrt (n : ℕ) : ℕ := nsqrtGo n 0 32

/-- Model of `f32::sqrt` on rationals: exact on perfect squares (the only
inputs where the verification below evaluates it), a floor approximation
elsewhere, and `0` on negative inputs. -/
def fsqrt (q : ℚ) : ℚ := (nsqrt (q.num.toNat * q.den) : ℚ) / (q.den : ℚ)

/-- Models `InnerSpace::normalize`: `v * (1 / v.magnitude())`. -/
def Vec3.normalize (v : Vec3) : Vec3 := (1 / fsqrt v.magnitude2) • v

/-- Model of the float literal `1E-6` (self-intersection guard used in
`sphere.rs` and `plane.rs`). -/
def epsHit : ℚ := 1 / 1000000

/-- Model of `f32::EPSILON = 2⁻²³`, the default tolerance used by
`abs_diff_eq!` in `plane.rs`. -/
def epsF32 : ℚ := 1 / 8388608

/-- Rust `struct Intersection` from src/shape.rs: squared distance to the
hit (negative when there is no hit) and the surface vector stored in
`normal`. -/
structure Intersection where
  dist2 : ℚ
  normal : Vec3
deriving DecidableEq, Repr

/-- Rust `Intersection::no()`: the non-existent sentinel, distance `-1`
and zero normal. -/
def Intersection.no : Intersection := ⟨-1, ⟨0, 0, 0⟩⟩

/-- Rust `Intersection::exists(&self)`: `self.dist2 >= 0.`. -/
def Intersection.existsb (i : Intersection) : Bool := decide (0 ≤ i.dist2)

/-- Rust `impl PartialOrd for Intersection` (src/shape.rs): the body of
`partial_cmp`.  On rationals the inner float comparison is total, so the
`None` case arises exactly when neither side exists. -/
def Intersection.pcmp (a b : Intersection) : Option Ordering :=
  if a.existsb then
    if b.existsb then
      some (if a.dist2 < b.dist2 then Ordering.lt
            else if a.dist2 = b.dist2 then Ordering.eq
            else Ordering.gt)
    else some Ordering.lt
  else
    if b.existsb then some Ordering.gt else none

/-- Rust `a < b` on `Intersection`, i.e. `a.partial_cmp(&b) == Some(Less)`. -/
def Intersection.iltb (a b : Intersection) : Bool :=
  decide (a.pcmp b = some Ordering.lt)

/-- Rust `impl PartialEq for Intersection`:
`self.exists() && other.exists() && self.dist2 == other.dist2`. -/
def Intersection.eqb (a b : Intersection) : Bool :=
  a.existsb && b.existsb && decide (a.dist2 = b.dist2)

/-- Rust `struct Sphere` from src/sphere.rs. -/
structure Sphere where
  center : Vec3
  radius : ℚ
deriving DecidableEq, Repr

/-- Rust `impl Shape for Sphere`, `ray_intersect` (src/sphere.rs lines
16-39), translated branch by branch. -/
def Sphere.ray_intersect (s : Sphere) (origin dir : Vec3) : Intersection :=
  let to_center := s.center - origin
  let p := Vec3.dot to_center dir
  if p < 0 then Intersection.no
  else
    let projection2 := p * p / dir.magnitude2
    let ray_dist2 := to_center.magnitude2 - projection2
    let r2 := s.radius * s.radius
    if ray_dist2 > r2 then Intersection.no
    else
      let seg2 := r2 - ray_dist2
      if projection2 < seg2 then Intersection.no
      else
        let dist2 := projection2 + seg2 - fsqrt (4 * projection2 * seg2)
        if dist2 < epsHit then Intersection.no
        else ⟨dist2, fsqrt (dist2 / dir.magnitude2) • dir - to_center⟩

/-- Rust `struct IntersectionN` from src/shape.rs: linear distance
(negative when absent) and a unit normal. -/
structure IntersectionN where
  dist : ℚ
  normal : Vec3
deriving DecidableEq, Repr

/-- Rust `IntersectionN::new_empty()`: distance `-1`, normal `x_axis`. -/
def IntersectionN.newEmpty : IntersectionN := ⟨-1, ⟨1, 0, 0⟩⟩

/-- Rust `struct SphereN` from src/sphere.rs, with the cached squared
radius field. -/
structure SphereN where
  center : Vec3
  radius : ℚ
  radius2 : ℚ
deriving DecidableEq, Repr

/-- Rust `SphereN::new`: caches `radius * radius`. -/
def SphereN.mkNew (center : Vec3) (radius : ℚ) : SphereN :=
  ⟨center, radius, radius * radius⟩

/-- Rust `impl ShapeN for SphereN`, `ray_intersect` (src/sphere.rs lines
59-85); `dir` stands for the unit direction wrapped by `nalgebra::Unit`. -/
def SphereN.ray_intersect (s : SphereN) (origin dir : Vec3) : IntersectionN :=
  let to_center := s.center - origin
  let projection := Vec3.dot dir to_center
  if projection ≤ 0 then IntersectionN.newEmpty
  else
    let projection2 := projection * projection
    let ray_dist2 := to_center.magnitude2 - projection2
    if ray_dist2 ≥ s.radius2 then IntersectionN.newEmpty
    else
      let seg2 := s.radius2 - ray_dist2
      if projection2 ≤ seg2 then IntersectionN.newEmpty
      else
        let dist := fsqrt projection2 - fsqrt seg2
        let to_intersect := dist • dir
        ⟨dist, (1 / s.radius) • (to_intersect - to_center)⟩

/-- Rust `struct Plane` from src/plane.rs. -/
structure Plane where
  point : Vec3
  normal : Vec3
deriving DecidableEq, Repr

/-- Rust `impl Shape for Plane`, `ray_intersect` (src/plane.rs lines
16-28).  `abs_diff_eq!(dir_proj, 0.)` is `|dir_proj| ≤ f32::EPSILON`. -/
def Plane.ray_intersect (pl : Plane) (origin dir : Vec3) : Intersection :=
  let dir_proj := Vec3.dot dir pl.normal
  if |dir_proj| ≤ epsF32 then Intersection.no
  else
    let point_proj := Vec3.dot (pl.point - origin) pl.normal
    let rt := point_proj / dir_proj
    if rt < epsHit then Intersection.no
    else ⟨rt * rt * dir.magnitude2, pl.normal⟩

/-- Rust `struct Material` from src/material.rs (the `shininess` `powf`
exponent is modelled as a natural number, see the file header). -/
structure Material where
  color : Vec3
  diffusion : ℚ
  reflection : ℚ
  shininess : ℕ
deriving DecidableEq, Repr

/-- Explicit-state model of `rand::Rng` as used by this program: a stream
of pre-drawn unit-sphere surface samples (the only thing the code draws)
and a cursor. -/
structure Rng where
  stream : ℕ → Vec3
  pos : ℕ

/-- Drawing one sample from `rand::distributions::UnitSphereSurface`
advances the generator by one position. -/
def Rng.sampleUnitSphere (r : Rng) : Vec3 × Rng :=
  (r.stream r.pos, ⟨r.stream, r.pos + 1⟩)

/-- Rust `struct PointLight` from src/light.rs. -/
structure PointLight where
  position : Vec3
  intensity : ℚ
deriving DecidableEq, Repr

/-- Rust `PointLight::sample_ray` (src/light.rs lines 21-23):
`self.position - from`; the generator argument `_rng` is unused, so the
returned generator state is the input state. -/
def PointLight.sample_ray (l : PointLight) (frm : Vec3) (rng : Rng) : Vec3 × Rng :=
  (l.position - frm, rng)

/-- Rust `struct SphereLight` from src/light.rs (the stateless
`sphere_dist` distribution value is not data and is carried by `Rng`). -/
structure SphereLight where
  center : Vec3
  radius : ℚ
  intensity : ℚ
deriving DecidableEq, Repr

/-- Rust `SphereLight::sample_ray`: draw a unit-sphere point, scale by the
radius around the center, and return the vector from `from`. -/
def SphereLight.sample_ray (l : SphereLight) (frm : Vec3) (rng : Rng) : Vec3 × Rng :=
  let u := rng.sampleUnitSphere
  (l.center + l.radius • u.1 - frm, u.2)

/-- Dictionary form of the Rust `trait Light` (src/light.rs): the two
methods `sample_ray` and `intensity` seen by the generic
`illumination_from_light`. -/
structure Light where
  sampleRay : Vec3 → Rng → Vec3 × Rng
  intensity : ℚ

/-- View of a `PointLight` through the `Light` trait. -/
def PointLight.toLight (l : PointLight) : Light :=
  ⟨l.sample_ray, l.intensity⟩

/-- View of a `SphereLight` through the `Light` trait. -/
def SphereLight.toLight (l : SphereLight) : Light :=
  ⟨l.sample_ray, l.intensity⟩

/-- Rust `struct Scene` from src/scene.rs. -/
structure Scene where
  spheres : List (ℕ × Sphere)
  planes : List (ℕ × Plane)
  materials : List Material
  point_lights : List PointLight
  sphere_lights : List SphereLight
  sphere_light_samples : ℕ

/-- One step of the `find_intersection` loops: replace the accumulator
`(nearest, best_idx)` when `intersection < nearest`. -/
def istep (acc : Intersection × ℕ) (entry : ℕ × Intersection) : Intersection × ℕ :=
  if entry.2.iltb acc.1 then (entry.2, entry.1) else acc

/-- Rust `Scene::find_intersection` (src/scene.rs lines 60-85): fold the
update step first over all spheres, then over all planes, starting from
`(Intersection::no(), 0)`. -/
def Scene.find_intersection (s : Scene) (origin dir : Vec3) : Intersection × ℕ :=
  let afterSpheres :=
    (s.spheres.map (fun e => (e.1, e.2.ray_intersect origin dir))).foldl istep
      (Intersection.no, 0)
  (s.planes.map (fun e => (e.1, e.2.ray_intersect origin dir))).foldl istep
    afterSpheres

/-- All `(material id, ray_intersect result)` pairs the two loops of
`find_intersection` inspect, in loop order. -/
def Scene.allHits (s : Scene) (origin dir : Vec3) : List (ℕ × Intersection) :=
  s.spheres.map (fun e => (e.1, e.2.ray_intersect origin dir)) ++
    s.planes.map (fun e => (e.1, e.2.ray_intersect origin dir))

/-- The body of one iteration of the sampling loop in
`Scene::illumination_from_light` (src/scene.rs lines 97-129), given the
light vector drawn for this iteration: the value added to `total`
(`0` when the iteration runs `continue`). -/
def sampleContrib (s : Scene) (point normal dir : Vec3) (m : Material)
    (intensity : ℚ) (light_vec : Vec3) : ℚ :=
  let light_dist2 := light_vec.magnitude2
  let light_dir := light_vec.normalize
  let expanded := point + (1 / 1000 : ℚ) • normal
  let to_light_int := (s.find_intersection expanded light_dir).1
  if to_light_int.existsb ∧ to_light_int.dist2 < light_dist2 then 0
  else
    let dist2 := light_vec.magnitude2
    let diffusion_intensity := Vec3.dot normal light_dir
    if diffusion_intensity ≤ epsHit then 0
    else
      let reflect_vec := (2 * Vec3.dot light_dir normal) • normal - light_dir
      let reflect_unit := reflect_vec.normalize
      let reflect_raw := Vec3.dot reflect_unit (-dir)
      let reflect_intensity := if reflect_raw > 0 then reflect_raw ^ m.shininess else 0
      intensity / dist2 *
        (m.diffusion * diffusion_intensity + m.reflection * reflect_intensity)

/-- The sampling loop of `Scene::illumination_from_light`: accumulate the
per-sample contributions, threading the generator through
`light.sample_ray` exactly as the Rust loop does. -/
def illumLoop (s : Scene) (point normal dir : Vec3) (m : Material)
    (sampler : Vec3 → Rng → Vec3 × Rng) (intensity : ℚ) :
    ℕ → Rng → ℚ
  | 0, _ => 0
  | n + 1, rng =>
    let lr := sampler point rng
    sampleContrib s point normal dir m intensity lr.1 +
      illumLoop s point normal dir m sampler intensity n lr.2

/-- Rust `Scene::illumination_from_light` (src/scene.rs lines 87-132):
loop over `samples` light samples and divide the total by the sample
count. -/
def Scene.illumination_from_light (s : Scene) (rng : Rng)
    (point normal dir : Vec3) (m : Material) (light : Light)
    (samples : ℕ) : ℚ :=
  illumLoop s point normal dir m light.sampleRay light.intensity samples rng /
    (samples : ℚ)

/-- The sequence of light vectors drawn by the loop of
`illumination_from_light` for a given sampler, start point and generator
state, in iteration order. -/
def sampleVecs (sampler : Vec3 → Rng → Vec3 × Rng) (point : Vec3) :
    ℕ → Rng → List Vec3
  | 0, _ => []
  | n + 1, rng =>
    let lr := sampler point rng
    lr.1 :: sampleVecs sampler point n lr.2

/-- Hit point computed by `Scene::ray_color` (src/scene.rs line 141):
`origin + dir * (dist2 / dir.magnitude2()).sqrt()`. -/
def ipoint (origin dir : Vec3) (dist2 : ℚ) : Vec3 :=
  origin + fsqrt (dist2 / dir.magnitude2) • dir

/-- Squared distance from a point to the ray `origin + t • dir, t ≥ 0`
(the geometric notion of closest approach used in the spec: when the
center projects behind the origin the closest ray point is the origin
itself). -/
def rayDist2 (center origin dir : Vec3) : ℚ :=
  let to_center := center - origin
  let p := Vec3.dot to_center dir
  if p ≤ 0 then to_center.magnitude2
  else to_center.magnitude2 - p * p / dir.magnitude2

/-! Component lemmas for the vector algebra. -/

@[simp] lemma Vec3.add_x (a b : Vec3) : (a + b).x = a.x + b.x := rfl

@[simp] lemma Vec3.add_y (a b : Vec3) : (a + b).y = a.y + b.y := rfl

@[simp] lemma Vec3.add_z (a b : Vec3) : (a + b).z = a.z + b.z := rfl

@[simp] lemma Vec3.sub_x (a b : Vec3) : (a - b).x = a.x - b.x := rfl

@[simp] lemma Vec3.sub_y (a b : Vec3) : (a - b).y = a.y - b.y := rfl

@[simp] lemma Vec3.sub_z (a b : Vec3) : (a - b).z = a.z - b.z := rfl

@[simp] lemma Vec3.smul_x (c : ℚ) (a : Vec3) : (c • a).x = c * a.x := rfl

@[simp] lemma Vec3.smul_y (c : ℚ) (a : Vec3) : (c • a).y = c * a.y := rfl

@[simp] lemma Vec3.smul_z (c : ℚ) (a : Vec3) : (c • a).z = c * a.z := rfl

lemma Vec3.ext3 {a b : Vec3} (hx : a.x = b.x) (hy : a.y = b.y)
    (hz : a.z = b.z) : a = b := by
  cases a; cases b; simp_all

lemma Vec3.magnitude2_nonneg (v : Vec3) : 0 ≤ v.magnitude2 := by
  have hx := mul_self_nonneg v.x
  have hy := mul_self_nonneg v.y
  have hz := mul_self_nonneg v.z
  unfold Vec3.magnitude2 Vec3.dot
  linarith

lemma Vec3.magnitude2_pos_of_dot_ne {v w : Vec3}
    (h : Vec3.dot v w ≠ 0) : 0 < v.magnitude2 := by
  rcases lt_or_eq_of_le (Vec3.magnitude2_nonneg v) with hp | hp
  · exact hp
  · exfalso
    apply h
    have h0 : v.x * v.x + v.y * v.y + v.z * v.z = 0 := hp.symm
    have hx : v.x = 0 := by
      have := mul_self_nonneg v.x
      have := mul_self_nonneg v.y
      have := mul_self_nonneg v.z
      nlinarith
    have hy : v.y = 0 := by
      have := mul_self_nonneg v.x
      have := mul_self_nonneg v.y
      have := mul_self_nonneg v.z
      nlinarith
    have hz : v.z = 0 := by
      have := mul_self_nonneg v.x
      have := mul_self_nonneg v.y
      have := mul_self_nonneg v.z
      nlinarith
    simp [Vec3.dot, hx, hy, hz]

/-! Helper lemmas about the `Intersection` ordering. -/

lemma Intersection.iltb_iff (a b : Intersection) :
    a.iltb b = true ↔
      a.existsb = true ∧ (b.existsb = false ∨ a.dist2 < b.dist2) := by
  unfold Intersection.iltb Intersection.pcmp
  by_cases ha : a.existsb <;> by_cases hb : b.existsb <;>
    simp [ha, hb] <;> split_ifs with h1 h2 <;> simp_all

lemma Intersection.existsb_of_iltb {a b : Intersection}
    (h : a.iltb b = true) : a.existsb = true :=
  ((Intersection.iltb_iff a b).mp h).1

lemma Intersection.not_iltb_self (a : Intersection) : ¬ a.iltb a = true := by
  rw [Intersection.iltb_iff]
  rintro ⟨ha, hb | hb⟩
  · rw [ha] at hb; simp at hb
  · exact lt_irrefl _ hb

lemma Intersection.iltb_trans {a b c : Intersection}
    (h1 : a.iltb b = true) (h2 : b.iltb c = true) : a.iltb c = true := by
  rw [Intersection.iltb_iff] at h1 h2 ⊢
  obtain ⟨ha, h1'⟩ := h1
  obtain ⟨hb, h2'⟩ := h2
  refine ⟨ha, ?_⟩
  rcases h1' with hb' | hab
  · rw [hb] at hb'; exact absurd hb' (by simp)
  · rcases h2' with hc | hbc
    · exact Or.inl hc
    · exact Or.inr (lt_trans hab hbc)

lemma Intersection.existsb_no : Intersection.no.existsb = false := by decide

/-! Helper lemmas about the `find_intersection` fold. -/

lemma istep_cases (acc : Intersection × ℕ) (q : ℕ × Intersection) :
    (istep acc q = acc ∧ ¬ q.2.iltb acc.1 = true) ∨
      (istep acc q = (q.2, q.1) ∧ q.2.iltb acc.1 = true) := by
  unfold istep
  split_ifs with h
  · exact Or.inr ⟨rfl, h⟩
  · exact Or.inl ⟨rfl, h⟩

lemma foldl_istep_shrink (l : List (ℕ × Intersection)) (acc : Intersection × ℕ) :
    (l.foldl istep acc).1 = acc.1 ∨ (l.foldl istep acc).1.iltb acc.1 = true := by
  induction l generalizing acc with
  | nil => exact Or.inl rfl
  | cons q t ih =>
    rw [List.foldl_cons]
    rcases istep_cases acc q with ⟨heq, _⟩ | ⟨heq, hlt⟩
    · rw [heq]; exact ih acc
    · rcases ih (istep acc q) with h | h
      · rw [h, heq]; exact Or.inr hlt
      · rw [heq] at h ⊢
        exact Or.inr (Intersection.iltb_trans h hlt)

lemma foldl_istep_min (l : List (ℕ × Intersection)) (acc : Intersection × ℕ) :
    ∀ p ∈ l, ¬ p.2.iltb (l.foldl istep acc).1 = true := by
  induction l generalizing acc with
  | nil => intro p hp; exact absurd hp (List.not_mem_nil p)
  | cons q t ih =>
    intro p hp
    rw [List.foldl_cons]
    rcases List.mem_cons.mp hp with rfl | hpt
    · have h0 : ¬ p.2.iltb (istep acc p).1 = true := by
        rcases istep_cases acc p with ⟨heq, hn⟩ | ⟨heq, _⟩
        · rw [heq]; exact hn
        · rw [heq]; exact Intersection.not_iltb_self p.2
      rcases foldl_istep_shrink t (istep acc p) with he | hlt
      · rw [he]; exact h0
      · intro hc; exact h0 (Intersection.iltb_trans hc hlt)
    · exact ih (istep acc q) p hpt

lemma foldl_istep_source (l : List (ℕ × Intersection)) (acc : Intersection × ℕ) :
    l.foldl istep acc = acc ∨
      ∃ p ∈ l, l.foldl istep acc = (p.2, p.1) ∧ p.2.existsb = true := by
  induction l generalizing acc with
  | nil => exact Or.inl rfl
  | cons q t ih =>
    rw [List.foldl_cons]
    rcases istep_cases acc q with ⟨heq, _⟩ | ⟨heq, hlt⟩
    · rw [heq]
      rcases ih acc with h | ⟨p, hp, h1, h2⟩
      · exact Or.inl h
      · exact Or.inr ⟨p, List.mem_cons_of_mem q hp, h1, h2⟩
    · rcases ih (istep acc q) with h | ⟨p, hp, h1, h2⟩
      · rw [h, heq]
        exact Or.inr ⟨q, List.mem_cons_self q t, rfl, Intersection.existsb_of_iltb hlt⟩
      · exact Or.inr ⟨p, List.mem_cons_of_mem q hp, h1, h2⟩

lemma Scene.find_eq_fold (s : Scene) (o d : Vec3) :
    s.find_intersection o d = (s.allHits o d).foldl istep (Intersection.no, 0) := by
  unfold Scene.find_intersection Scene.allHits
  rw [List.foldl_append]

/-- C1: `Scene::find_intersection` returns an intersection minimal (under
the `Intersection` ordering) among the `ray_intersect` results of all of
the scene's spheres and planes, paired with the material id of a shape
attaining that minimum; if no shape yields an existing intersection it
returns the sentinel paired with material id 0. -/
theorem find_intersection_min (s : Scene) (o d : Vec3) :
    (∀ p ∈ s.allHits o d, ¬ p.2.iltb (s.find_intersection o d).1 = true) ∧
    ((s.find_intersection o d).1.existsb = true →
      ∃ p ∈ s.allHits o d,
        p.1 = (s.find_intersection o d).2 ∧ p.2 = (s.find_intersection o d).1) ∧
    ((∀ p ∈ s.allHits o d, p.2.existsb = false) →
      s.find_intersection o d = (Intersection.no, 0)) := by
  rw [Scene.find_eq_fold]
  refine ⟨foldl_istep_min _ _, ?_, ?_⟩
  · intro hex
    rcases foldl_istep_source (s.allHits o d) (Intersection.no, 0) with h | ⟨p, hp, h1, h2⟩
    · rw [h] at hex
      exact absurd hex (by decide)
    · exact ⟨p, hp, by rw [h1], by rw [h1]⟩
  · intro hall
    rcases foldl_istep_source (s.allHits o d) (Intersection.no, 0) with h | ⟨p, hp, _, h2⟩
    · exact h
    · rw [hall p hp] at h2
      simp at h2

/-- C1 witness: with a concrete two-sphere scene the result is the nearer
sphere's hit paired with its id, and with an all-miss scene the result is
the sentinel paired with id 0. -/
theorem find_intersection_min_witness :
    (∃ p ∈ Scene.allHits
        ⟨[(0, ⟨⟨0, 0, 3⟩, 1⟩), (1, ⟨⟨0, 0, 2⟩, 1/2⟩)], [], [], [], [], 100⟩
        ⟨0, 0, 0⟩ ⟨0, 0, 1⟩,
      p.1 = (Scene.find_intersection
        ⟨[(0, ⟨⟨0, 0, 3⟩, 1⟩), (1, ⟨⟨0, 0, 2⟩, 1/2⟩)], [], [], [], [], 100⟩
        ⟨0, 0, 0⟩ ⟨0, 0, 1⟩).2 ∧
      p.2 = (Scene.find_intersection
        ⟨[(0, ⟨⟨0, 0, 3⟩, 1⟩), (1, ⟨⟨0, 0, 2⟩, 1/2⟩)], [], [], [], [], 100⟩
        ⟨0, 0, 0⟩ ⟨0, 0, 1⟩).1) ∧
    Scene.find_intersection ⟨[(0, ⟨⟨0, 3, 0⟩, 1⟩)], [], [], [], [], 100⟩
        ⟨0, 0, 0⟩ ⟨0, 0, 1⟩ = (Intersection.no, 0) :=
  ⟨(find_intersection_min
      ⟨[(0, ⟨⟨0, 0, 3⟩, 1⟩), (1, ⟨⟨0, 0, 2⟩, 1/2⟩)], [], [], [], [], 100⟩
      ⟨0, 0, 0⟩ ⟨0, 0, 1⟩).2.1 (by decide),
   (find_intersection_min ⟨[(0, ⟨⟨0, 3, 0⟩, 1⟩)], [], [], [], [], 100⟩
      ⟨0, 0, 0⟩ ⟨0, 0, 1⟩).2.2 (by decide)⟩

/-- C5: for intersections that both exist, the Rust `<` (that is,
`partial_cmp == Some(Less)`) holds exactly when the distances compare;
when exactly one exists, the existing one always compares strictly less
than the non-existent one, regardless of the latter's distance value. -/
theorem intersection_lt_spec (a b : Intersection) :
    (a.existsb = true → b.existsb = true →
      (a.iltb b = true ↔ a.dist2 < b.dist2)) ∧
    (a.existsb = true → b.existsb = false → a.iltb b = true) ∧
    (a.existsb = false → b.existsb = true → b.iltb a = true) := by
  refine ⟨?_, ?_, ?_⟩
  · intro ha hb
    rw [Intersection.iltb_iff]
    simp [ha, hb]
  · intro ha hb
    rw [Intersection.iltb_iff]
    exact ⟨ha, Or.inl hb⟩
  · intro ha hb
    rw [Intersection.iltb_iff]
    exact ⟨hb, Or.inl ha⟩

/-- C5 witness: concrete instances of the three cases (existing `1 < 2`,
existing below sentinel, and the symmetric sentinel case with a non-existent
distance `-5`). -/
theorem intersection_lt_spec_witness :
    (⟨1, ⟨0, 0, 0⟩⟩ : Intersection).iltb ⟨2, ⟨0, 0, 0⟩⟩ = true ∧
    (⟨1, ⟨0, 0, 0⟩⟩ : Intersection).iltb ⟨-5, ⟨0, 0, 0⟩⟩ = true ∧
    (⟨1, ⟨0, 0, 0⟩⟩ : Intersection).iltb ⟨-5, ⟨1, 2, 3⟩⟩ = true :=
  ⟨((intersection_lt_spec ⟨1, ⟨0, 0, 0⟩⟩ ⟨2, ⟨0, 0, 0⟩⟩).1 (by decide)
      (by decide)).mpr (by norm_num),
   (intersection_lt_spec ⟨1, ⟨0, 0, 0⟩⟩ ⟨-5, ⟨0, 0, 0⟩⟩).2.1 (by decide)
      (by decide),
   (intersection_lt_spec ⟨-5, ⟨1, 2, 3⟩⟩ ⟨1, ⟨0, 0, 0⟩⟩).2.2 (by decide)
      (by decide)⟩

/-- C10: `PartialEq` on `Intersection` returns true only when both sides
exist and their distances are equal; hence the sentinel `no()` is not
equal to itself and two non-existent intersections are never equal. -/
theorem intersection_eq_spec :
    (∀ a b : Intersection,
      a.eqb b = true ↔
        a.existsb = true ∧ b.existsb = true ∧ a.dist2 = b.dist2) ∧
    Intersection.no.eqb Intersection.no = false ∧
    (∀ a b : Intersection,
      a.existsb = false → b.existsb = false → a.eqb b = false) := by
  refine ⟨?_, by decide, ?_⟩
  · intro a b
    unfold Intersection.eqb
    simp [Bool.and_eq_true, and_assoc]
  · intro a b ha _
    unfold Intersection.eqb
    rw [ha]
    simp

/-- C10 witness: the sentinel is not equal to itself, two distinct
non-existent intersections are not equal, and two existing intersections
with equal distance are equal. -/
theorem intersection_eq_spec_witness :
    Intersection.no.eqb Intersection.no = false ∧
    (⟨-2, ⟨0, 0, 0⟩⟩ : Intersection).eqb ⟨-3, ⟨0, 0, 0⟩⟩ = false ∧
    (⟨1, ⟨0, 0, 0⟩⟩ : Intersection).eqb ⟨1, ⟨4, 5, 6⟩⟩ = true :=
  ⟨intersection_eq_spec.2.1,
   intersection_eq_spec.2.2 ⟨-2, ⟨0, 0, 0⟩⟩ ⟨-3, ⟨0, 0, 0⟩⟩ (by decide) (by decide),
   (intersection_eq_spec.1 ⟨1, ⟨0, 0, 0⟩⟩ ⟨1, ⟨4, 5, 6⟩⟩).mpr (by decide)⟩

lemma fsqrt_zero : fsqrt 0 = 0 := by decide

lemma epsHit_pos : (0 : ℚ) < epsHit := by norm_num [epsHit]

/-- C4: when the squared distance from the sphere's center to the ray
exceeds the squared radius, `Sphere::ray_intersect` returns the
non-existent sentinel: negative distance, and `exists()` is false. -/
theorem sphere_miss (s : Sphere) (o d : Vec3)
    (h : s.radius * s.radius < rayDist2 s.center o d) :
    s.ray_intersect o d = Intersection.no ∧
    (s.ray_intersect o d).existsb = false ∧
    (s.ray_intersect o d).dist2 < 0 := by
  have heq : s.ray_intersect o d = Intersection.no := by
    simp only [rayDist2] at h
    simp only [Sphere.ray_intersect]
    split_ifs with h1 h2 <;> try rfl
    all_goals exfalso
    all_goals
      rcases le_or_lt (Vec3.dot (s.center - o) d) 0 with hp | hp
    all_goals
      first
      | (have hp0 : Vec3.dot (s.center - o) d = 0 :=
          le_antisymm hp (not_lt.mp h1)
         rw [if_pos hp] at h
         rw [hp0] at h2
         simp only [zero_mul, zero_div, sub_zero] at h2
         linarith)
      | (rw [if_neg (not_le.mpr hp)] at h
         linarith)
  refine ⟨heq, ?_, ?_⟩
  · rw [heq]; decide
  · rw [heq]; norm_num [Intersection.no]

/-- C4 witness: a unit sphere whose center is at squared distance 9 from
the ray misses it. -/
theorem sphere_miss_witness :
    Sphere.ray_intersect ⟨⟨0, 3, 0⟩, 1⟩ ⟨0, 0, 0⟩ ⟨1, 0, 0⟩ = Intersection.no ∧
    (Sphere.ray_intersect ⟨⟨0, 3, 0⟩, 1⟩ ⟨0, 0, 0⟩ ⟨1, 0, 0⟩).existsb = false ∧
    (Sphere.ray_intersect ⟨⟨0, 3, 0⟩, 1⟩ ⟨0, 0, 0⟩ ⟨1, 0, 0⟩).dist2 < 0 :=
  sphere_miss ⟨⟨0, 3, 0⟩, 1⟩ ⟨0, 0, 0⟩ ⟨1, 0, 0⟩ (by decide)

/-- C6: every intersection returned by `Sphere::ray_intersect` or
`Plane::ray_intersect` either does not exist (negative distance) or has a
strictly positive distance; a valid hit's distance is never zero thanks
to the epsilon self-intersection guards. -/
theorem hit_distance_pos (s : Sphere) (pl : Plane) (o d o2 d2 : Vec3) :
    ((s.ray_intersect o d).dist2 < 0 ∨ 0 < (s.ray_intersect o d).dist2) ∧
    ((pl.ray_intersect o2 d2).dist2 < 0 ∨ 0 < (pl.ray_intersect o2 d2).dist2) := by
  constructor
  · simp only [Sphere.ray_intersect]
    split_ifs with h1 h2 h3 h4
    · left; norm_num [Intersection.no]
    · left; norm_num [Intersection.no]
    · left; norm_num [Intersection.no]
    · left; norm_num [Intersection.no]
    · exact Or.inr (lt_of_lt_of_le epsHit_pos (not_lt.mp h4))
  · simp only [Plane.ray_intersect]
    split_ifs with h1 h2
    · left; norm_num [Intersection.no]
    · left; norm_num [Intersection.no]
    · right
      have hdp : Vec3.dot d2 pl.normal ≠ 0 := by
        intro h0
        apply h1
        rw [h0]
        norm_num [epsF32]
      have hm : 0 < d2.magnitude2 := Vec3.magnitude2_pos_of_dot_ne hdp
      have hrtpos : 0 < Vec3.dot (pl.point - o2) pl.normal / Vec3.dot d2 pl.normal :=
        lt_of_lt_of_le epsHit_pos (not_lt.mp h2)
      exact mul_pos (mul_pos hrtpos hrtpos) hm

/-- C7: whenever the projection of the center on the ray direction is
non-positive (`dot(dir, center - origin) ≤ 0`), both `Sphere::ray_intersect`
and `SphereN::ray_intersect` return the no-intersection sentinel. -/
theorem sphere_behind_reject (s : Sphere) (sn : SphereN) (o d o2 d2 : Vec3)
    (h1 : Vec3.dot (s.center - o) d ≤ 0)
    (h2 : Vec3.dot d2 (sn.center - o2) ≤ 0) :
    s.ray_intersect o d = Intersection.no ∧
    sn.ray_intersect o2 d2 = IntersectionN.newEmpty := by
  constructor
  · simp only [Sphere.ray_intersect]
    rcases lt_or_eq_of_le h1 with hlt | heq0
    · rw [if_pos hlt]
    · simp only [heq0, zero_mul, zero_div, lt_self_iff_false, if_false,
        sub_zero, mul_zero, fsqrt_zero, zero_add]
      split_ifs with g1 g2 g3 <;> try rfl
      exfalso
      have hz : s.radius * s.radius - (s.center - o).magnitude2 = 0 := by
        push_neg at g1 g2
        linarith
      rw [hz] at g3
      exact g3 epsHit_pos
  · simp only [SphereN.ray_intersect]
    rw [if_pos h2]

/-- C7 witness: a sphere centered behind the ray origin is rejected by
both implementations. -/
theorem sphere_behind_reject_witness :
    Sphere.ray_intersect ⟨⟨0, 0, -2⟩, 1⟩ ⟨0, 0, 0⟩ ⟨0, 0, 1⟩ = Intersection.no ∧
    SphereN.ray_intersect (SphereN.mkNew ⟨0, 0, -2⟩ 1) ⟨0, 0, 0⟩ ⟨0, 0, 1⟩ =
      IntersectionN.newEmpty :=
  sphere_behind_reject ⟨⟨0, 0, -2⟩, 1⟩ (SphereN.mkNew ⟨0, 0, -2⟩ 1)
    ⟨0, 0, 0⟩ ⟨0, 0, 1⟩ ⟨0, 0, 0⟩ ⟨0, 0, 1⟩ (by decide) (by decide)

lemma Vec3.sub_sub_eq (v p c : Vec3) : v - (c - p) = p + v - c := by
  apply Vec3.ext3 <;> simp <;> ring

/-- C2 counterexample: for the radius-2 sphere centered at `(0,0,3)` hit
by the ray from the origin along `+z`, the returned normal is
`(0,0,-2)` — the unnormalized `hit point - center`, whose squared length
is 4 — while the normalization of `hit point - center` is `(0,0,-1)`;
hence the claim that the normal is normalized (unit-length for every
radius) is false. -/
theorem sphere_normal_counterexample :
    (Sphere.ray_intersect ⟨⟨0, 0, 3⟩, 2⟩ ⟨0, 0, 0⟩ ⟨0, 0, 1⟩).existsb = true ∧
    (Sphere.ray_intersect ⟨⟨0, 0, 3⟩, 2⟩ ⟨0, 0, 0⟩ ⟨0, 0, 1⟩).normal ≠
      Vec3.normalize
        (ipoint ⟨0, 0, 0⟩ ⟨0, 0, 1⟩
            (Sphere.ray_intersect ⟨⟨0, 0, 3⟩, 2⟩ ⟨0, 0, 0⟩ ⟨0, 0, 1⟩).dist2 -
          ⟨0, 0, 3⟩) ∧
    (Sphere.ray_intersect ⟨⟨0, 0, 3⟩, 2⟩ ⟨0, 0, 0⟩ ⟨0, 0, 1⟩).normal.magnitude2 ≠ 1 := by
  decide

/-- C2 amended: for every existing hit, `Sphere::ray_intersect` stores in
`normal` exactly `hit point - center`, without normalization (its length
is the radius, so it is unit only for radius 1; `ray_color` normalizes it
before shading), while `SphereN::ray_intersect` stores
`(hit point - center) / radius`. -/
theorem sphere_normal_hitpoint (s : Sphere) (sn : SphereN) (o d o2 d2 : Vec3)
    (hs : (s.ray_intersect o d).existsb = true)
    (hn : 0 ≤ (sn.ray_intersect o2 d2).dist) :
    (s.ray_intersect o d).normal =
      ipoint o d (s.ray_intersect o d).dist2 - s.center ∧
    (sn.ray_intersect o2 d2).normal =
      (1 / sn.radius) • (o2 + (sn.ray_intersect o2 d2).dist • d2 - sn.center) := by
  constructor
  · simp only [Sphere.ray_intersect] at hs ⊢
    split_ifs at hs ⊢ with h1 h2 h3 h4
    · exact absurd hs (by decide)
    · exact absurd hs (by decide)
    · exact absurd hs (by decide)
    · exact absurd hs (by decide)
    · unfold ipoint
      exact Vec3.sub_sub_eq _ o s.center
  · simp only [SphereN.ray_intersect] at hn ⊢
    split_ifs at hn ⊢ with g1 g2 g3
    · exact absurd hn (by norm_num [IntersectionN.newEmpty])
    · exact absurd hn (by norm_num [IntersectionN.newEmpty])
    · exact absurd hn (by norm_num [IntersectionN.newEmpty])
    · dsimp only
      exact congrArg (fun v => (1 / sn.radius) • v) (Vec3.sub_sub_eq _ o2 sn.center)

/-- C2 witness: concrete existing hits of both implementations where the
amended normal equations hold. -/
theorem sphere_normal_hitpoint_witness :
    (Sphere.ray_intersect ⟨⟨0, 0, 3⟩, 2⟩ ⟨0, 0, 0⟩ ⟨0, 0, 1⟩).normal =
      ipoint ⟨0, 0, 0⟩ ⟨0, 0, 1⟩
        (Sphere.ray_intersect ⟨⟨0, 0, 3⟩, 2⟩ ⟨0, 0, 0⟩ ⟨0, 0, 1⟩).dist2 -
        (⟨0, 0, 3⟩ : Vec3) ∧
    (SphereN.ray_intersect (SphereN.mkNew ⟨0, 0, 3⟩ 1) ⟨0, 0, 0⟩ ⟨0, 0, 1⟩).normal =
      (1 / (SphereN.mkNew (⟨0, 0, 3⟩ : Vec3) 1).radius) •
        ((⟨0, 0, 0⟩ : Vec3) +
          (SphereN.ray_intersect (SphereN.mkNew ⟨0, 0, 3⟩ 1) ⟨0, 0, 0⟩ ⟨0, 0, 1⟩).dist •
            (⟨0, 0, 1⟩ : Vec3) -
          (SphereN.mkNew (⟨0, 0, 3⟩ : Vec3) 1).center) :=
  sphere_normal_hitpoint ⟨⟨0, 0, 3⟩, 2⟩ (SphereN.mkNew ⟨0, 0, 3⟩ 1)
    ⟨0, 0, 0⟩ ⟨0, 0, 1⟩ ⟨0, 0, 0⟩ ⟨0, 0, 1⟩ (by decide) (by decide)

/-- C3: in `illumination_from_light` the shadow ray is cast from the hit
point offset by `0.001` along the surface normal, and a sample whose
shadow-ray nearest intersection exists with squared distance strictly
below the squared distance to the light sample contributes zero. -/
theorem shadow_occlusion (s : Scene) (point normal dir : Vec3) (m : Material)
    (intensity : ℚ) (lv : Vec3)
    (hex : (s.find_intersection (point + (1 / 1000 : ℚ) • normal)
        lv.normalize).1.existsb = true)
    (hlt : (s.find_intersection (point + (1 / 1000 : ℚ) • normal)
        lv.normalize).1.dist2 < lv.magnitude2) :
    sampleContrib s point normal dir m intensity lv = 0 := by
  simp only [sampleContrib]
  rw [if_pos]
  exact ⟨hex, hlt⟩

/-- C3 witness: with a plane at `z = 1` between the surface point at the
origin (normal `+z`) and a light sample at `z = 4`, the shadow ray from
`(0,0,0.001)` hits the plane nearer than the light and the sample
contributes zero. -/
theorem shadow_occlusion_witness :
    sampleContrib ⟨[], [(0, ⟨⟨0, 0, 1⟩, ⟨0, 0, -1⟩⟩)], [], [], [], 100⟩
      ⟨0, 0, 0⟩ ⟨0, 0, 1⟩ ⟨0, 0, -1⟩ ⟨⟨1, 1, 1⟩, 1, 3, 10⟩ 1 ⟨0, 0, 4⟩ = 0 :=
  shadow_occlusion ⟨[], [(0, ⟨⟨0, 0, 1⟩, ⟨0, 0, -1⟩⟩)], [], [], [], 100⟩
    ⟨0, 0, 0⟩ ⟨0, 0, 1⟩ ⟨0, 0, -1⟩ ⟨⟨1, 1, 1⟩, 1, 3, 10⟩ 1 ⟨0, 0, 4⟩
    (by decide) (by decide)

/-- C9: `PointLight::sample_ray` always returns `position - from`; the
result does not depend on the generator argument and the generator state
is left unchanged. -/
theorem point_light_sample_deterministic (l : PointLight) (frm : Vec3)
    (rng rng2 : Rng) :
    l.sample_ray frm rng = (l.position - frm, rng) ∧
    (l.sample_ray frm rng).1 = (l.sample_ray frm rng2).1 :=
  ⟨rfl, rfl⟩

lemma sampleContrib_mono (s : Scene) (point normal dir : Vec3) (m : Material)
    {i1 i2 : ℚ} (hd : 0 ≤ m.diffusion) (hr : 0 ≤ m.reflection)
    (hi : i1 ≤ i2) (lv : Vec3) :
    sampleContrib s point normal dir m i1 lv ≤
      sampleContrib s point normal dir m i2 lv := by
  simp only [sampleContrib]
  split_ifs with h1 h2 h3
  · exact le_refl 0
  · exact le_refl 0
  · have hdi : (0 : ℚ) < Vec3.dot normal lv.normalize :=
      lt_trans epsHit_pos (not_le.mp h2)
    have hF : 0 ≤ m.diffusion * Vec3.dot normal lv.normalize +
        m.reflection *
          Vec3.dot
              (Vec3.normalize
                ((2 * Vec3.dot lv.normalize normal) • normal - lv.normalize))
              (-dir) ^ m.shininess :=
      add_nonneg (mul_nonneg hd (le_of_lt hdi))
        (mul_nonneg hr (pow_nonneg (le_of_lt h3) _))
    rw [div_eq_mul_inv, div_eq_mul_inv]
    exact mul_le_mul_of_nonneg_right
      (mul_le_mul_of_nonneg_right hi (inv_nonneg.mpr (Vec3.magnitude2_nonneg lv)))
      hF
  · have hdi : (0 : ℚ) < Vec3.dot normal lv.normalize :=
      lt_trans epsHit_pos (not_le.mp h2)
    have hF : 0 ≤ m.diffusion * Vec3.dot normal lv.normalize + m.reflection * 0 :=
      add_nonneg (mul_nonneg hd (le_of_lt hdi)) (by rw [mul_zero])
    rw [div_eq_mul_inv, div_eq_mul_inv]
    exact mul_le_mul_of_nonneg_right
      (mul_le_mul_of_nonneg_right hi (inv_nonneg.mpr (Vec3.magnitude2_nonneg lv)))
      hF

lemma illumLoop_mono (s : Scene) (point normal dir : Vec3) (m : Material)
    (sampler : Vec3 → Rng → Vec3 × Rng) {i1 i2 : ℚ}
    (hd : 0 ≤ m.diffusion) (hr : 0 ≤ m.reflection) (hi : i1 ≤ i2) :
    ∀ (n : ℕ) (rng : Rng),
      illumLoop s point normal dir m sampler i1 n rng ≤
        illumLoop s point normal dir m sampler i2 n rng := by
  intro n
  induction n with
  | zero => intro rng; exact le_refl 0
  | succ k ih =>
    intro rng
    simp only [illumLoop]
    exact add_le_add
      (sampleContrib_mono s point normal dir m hd hr hi _)
      (ih _)

/-- C8: with the scene geometry, generator state, surface data and
material held fixed (non-negative diffusion and reflection
coefficients), and the point lit and unoccluded for every drawn sample,
raising the light's intensity does not decrease the value of
`illumination_from_light`. -/
theorem illumination_monotone (s : Scene) (rng : Rng) (point normal dir : Vec3)
    (m : Material) (l1 l2 : Light) (samples : ℕ)
    (hsame : l1.sampleRay = l2.sampleRay)
    (hd : 0 ≤ m.diffusion) (hr : 0 ≤ m.reflection)
    (hi : l1.intensity ≤ l2.intensity)
    (hlit : ∀ lv ∈ sampleVecs l1.sampleRay point samples rng,
      epsHit < Vec3.dot normal lv.normalize ∧
      ¬(((s.find_intersection (point + (1 / 1000 : ℚ) • normal)
            lv.normalize).1.existsb = true) ∧
        (s.find_intersection (point + (1 / 1000 : ℚ) • normal)
            lv.normalize).1.dist2 < lv.magnitude2)) :
    s.illumination_from_light rng point normal dir m l1 samples ≤
      s.illumination_from_light rng point normal dir m l2 samples := by
  unfold Scene.illumination_from_light
  rw [hsame]
  rw [div_eq_mul_inv, div_eq_mul_inv]
  exact mul_le_mul_of_nonneg_right
    (illumLoop_mono s point normal dir m l2.sampleRay hd hr hi samples rng)
    (inv_nonneg.mpr (Nat.cast_nonneg _))

/-- C8 witness: an empty scene, a surface point at the origin facing
`+z`, and a point light at `z = 4` sampled once: intensity 1 versus
intensity 2. -/
theorem illumination_monotone_witness :
    Scene.illumination_from_light ⟨[], [], [], [], [], 100⟩
        ⟨fun _ => ⟨1, 0, 0⟩, 0⟩ ⟨0, 0, 0⟩ ⟨0, 0, 1⟩ ⟨0, 0, -1⟩
        ⟨⟨1, 1, 1⟩, 1, 3, 10⟩ (PointLight.toLight ⟨⟨0, 0, 4⟩, 1⟩) 1 ≤
      Scene.illumination_from_light ⟨[], [], [], [], [], 100⟩
        ⟨fun _ => ⟨1, 0, 0⟩, 0⟩ ⟨0, 0, 0⟩ ⟨0, 0, 1⟩ ⟨0, 0, -1⟩
        ⟨⟨1, 1, 1⟩, 1, 3, 10⟩ (PointLight.toLight ⟨⟨0, 0, 4⟩, 2⟩) 1 :=
  illumination_monotone ⟨[], [], [], [], [], 100⟩ ⟨fun _ => ⟨1, 0, 0⟩, 0⟩
    ⟨0, 0, 0⟩ ⟨0, 0, 1⟩ ⟨0, 0, -1⟩ ⟨⟨1, 1, 1⟩, 1, 3, 10⟩
    (PointLight.toLight ⟨⟨0, 0, 4⟩, 1⟩) (PointLight.toLight ⟨⟨0, 0, 4⟩, 2⟩) 1
    rfl (by decide) (by decide) (by decide) (by decide)
